import Mathlib

/-!
Verification of the `ProtocolCommand` abstraction of the off-chain-reference
repository (`src/offchainapi/protocol_command.py`) against its specification.

The Python class is shallowly embedded: the mutable object becomes the
structure `ProtocolCommand`; methods that mutate `self` become functions
returning the post-state (paired with an optional error, since a failing
Python `assert` aborts before any mutation); JSON data dictionaries become
association lists over a `Json` value type.  Python `dict` construction from a
list of pairs (later duplicates overwrite earlier ones, keys keep their
first-insertion position) is modelled by `pydict`.  Version tokens are, per
the specification, opaque integer-or-string tokens compared for equality.
-/

namespace OffChain

/-- A version token: per the specification an "integer or string token unique
within its `object_id`'s lineage", treated as an opaque equality-comparable
token. -/
inductive Version where
  | int : Int → Version
  | str : String → Version
deriving DecidableEq

/-- A JSON value as it appears in a command's data dictionary: a number, a
string, or a version map (`object_id → version`).  The value stored under
`"_reads"`/`"_writes"` is a `map`; anything else is "not mapping-shaped". -/
inductive Json where
  | int : Int → Json
  | str : String → Json
  | map : List (String × Version) → Json
deriving DecidableEq

/-- A JSON data dictionary (the result of `json.loads` / the argument to
`json.dumps`): an association list with the keys in insertion order. -/
abbrev DataDict := List (String × Json)

/-- First-match lookup in an association list: `d[k]` on a Python dict whose
keys are unique, or `k in d` when testing for membership. -/
def lookupKey {α : Type} : List (String × α) → String → Option α
  | [], _ => none
  | (k', v) :: rest, k => if k' = k then some v else lookupKey rest k

/-- The value the key `k` ends up bound to when the pairs of `l` are inserted
into a Python dict left to right: the LAST value paired with `k`, if any. -/
def lastVal {α : Type} : List (String × α) → String → Option α
  | [], _ => none
  | (k', v) :: rest, k =>
    (lastVal rest k).or (if k' = k then some v else none)

/-- Python `dict(l)` for a list `l` of key-value pairs: keys appear once, in
order of first insertion, each bound to the last value assigned to it. -/
def pydict {α : Type} : List (String × α) → List (String × α)
  | [] => []
  | (k, v) :: rest =>
    (k, (lastVal rest k).getD v) :: (pydict rest).filter (fun p => !decide (p.1 = k))

/-- Modelled from the spec: the Party Identity collaborator (`LibraAddress`,
whose own module is outside the covered source) is an "opaque value type"
supporting "equality comparison and a canonical string encode/decode pair
(`as_str()` / `from_encoded_str()`)"; only canonical encodings decode. -/
structure LibraAddress where
  addr : String
  valid : addr.length > 0

instance : DecidableEq LibraAddress := fun a b =>
  if h : a.addr = b.addr then
    isTrue (by cases a; cases b; simpa using h)
  else
    isFalse (by intro hh; cases hh; exact h rfl)

/-- Canonical string encoding of a party identity. -/
def LibraAddress.as_str (a : LibraAddress) : String := a.addr

/-- Modelled from the spec: decoding a canonical string encoding; a string
that is not a canonical encoding fails to decode. -/
def LibraAddress.from_encoded_str (s : String) : Option LibraAddress :=
  if h : s.length > 0 then some ⟨s, h⟩ else none

/-- `JSONFlag` from `utils`: whether a serialization is intended for network
transmission (NET) or local storage (STORE). -/
inductive JSONFlag where
  | NET : JSONFlag
  | STORE : JSONFlag
deriving DecidableEq

/-- The state of a `ProtocolCommand` object: its two version maps (ordered
lists of `(object_id, version)` pairs, as built by concrete constructors) and
its optional origin.  `ProtocolCommand.__init__` produces
`⟨[], [], none⟩`. -/
structure ProtocolCommand where
  reads_version_map : List (String × Version)
  writes_version_map : List (String × Version)
  origin : Option LibraAddress
deriving DecidableEq

/-- `ProtocolCommand.__init__`: empty version maps, origin unset. -/
def ProtocolCommand.init : ProtocolCommand :=
  { reads_version_map := [], writes_version_map := [], origin := none }

/-- `ProtocolCommand.__eq__`: value equality of `reads_version_map`,
`writes_version_map` and `origin`. -/
def commandEq (a b : ProtocolCommand) : Prop :=
  a.reads_version_map = b.reads_version_map ∧
  a.writes_version_map = b.writes_version_map ∧
  a.origin = b.origin

/-- The error the specification names `StateConflict`: reassigning an
already-set origin to a different value (the Python `assert` firing). -/
inductive SetOriginError where
  | StateConflict : SetOriginError
deriving DecidableEq

/-- `ProtocolCommand.set_origin`: `assert self.origin is None or
origin == self.origin; self.origin = origin`.  Returns the raised error (if
any) together with the post-state of `self`; the `assert` fires before the
assignment, so on failure the command is unchanged. -/
def set_origin (self : ProtocolCommand) (origin : Option LibraAddress) :
    Option SetOriginError × ProtocolCommand :=
  if self.origin = none ∨ origin = self.origin then
    (none, { self with origin := origin })
  else
    (some SetOriginError.StateConflict, self)

/-- `ProtocolCommand.get_origin`. -/
def get_origin (self : ProtocolCommand) : Option LibraAddress := self.origin

/-- `ProtocolCommand.get_dependencies`:
`set(v for _, v in self.reads_version_map)`. -/
def get_dependencies (self : ProtocolCommand) : Finset Version :=
  (self.reads_version_map.map Prod.snd).toFinset

/-- `ProtocolCommand.get_new_object_versions`:
`set(v for _, v in self.writes_version_map)`. -/
def get_new_object_versions (self : ProtocolCommand) : Finset Version :=
  (self.writes_version_map.map Prod.snd).toFinset

/-- The error the specification names `UnknownVersion`: `get_object` called
with a version the command did not declare creating. -/
inductive GetObjectError where
  | UnknownVersion : GetObjectError
deriving DecidableEq

/-- Modelled from the spec: `get_object` is an abstract extension point (the
base class only declares it, raising `NotImplementedError`); per the
specification, a concrete variant materializes the shared-object snapshot for
one of its declared versions from the resolved dependencies, and "fails with
`UnknownVersion` if called with a version the command did not declare
creating" — i.e. a version outside `get_new_object_versions()`.  The
variant-specific materialization is the parameter `materialize`. -/
def get_object {α : Type} (materialize : Version → List α → α)
    (self : ProtocolCommand) (version_number : Version) (dependencies : List α) :
    Except GetObjectError α :=
  if version_number ∈ get_new_object_versions self then
    Except.ok (materialize version_number dependencies)
  else
    Except.error GetObjectError.UnknownVersion

/-- Modelled from the spec: `add_object_type` (inherited from the
`JSONSerializable` utility, outside the covered source) appends the concrete
variant's type tag to the data dictionary; variant-specific fields are
"merged in" in both modes and are distinct from the `"_reads"`, `"_writes"`
and `"_origin"` fields owned by the base model. -/
def add_object_type (d : DataDict) : DataDict :=
  d ++ [("_ObjectType", Json.str "ProtocolCommand")]

/-- `ProtocolCommand.get_json_data_dict`: builds
`{"_reads": dict(reads_version_map), "_writes": dict(writes_version_map)}`,
adds `"_origin": origin.as_str()` when `flag == STORE` and the origin is set,
then lets the variant append its type tag. -/
def get_json_data_dict (self : ProtocolCommand) (flag : JSONFlag) : DataDict :=
  let data_dict : DataDict :=
    [("_reads", Json.map (pydict self.reads_version_map)),
     ("_writes", Json.map (pydict self.writes_version_map))]
  let data_dict : DataDict :=
    if flag = JSONFlag.STORE then
      match self.origin with
      | some o => data_dict ++ [("_origin", Json.str o.as_str)]
      | none => data_dict
    else data_dict
  add_object_type data_dict

/-- The error the specification names `MalformedData`: a deserialization
input whose `_reads`/`_writes` entries are absent or not mapping-shaped, or
whose `_origin` encoding cannot be decoded in STORE mode. -/
inductive DeserializationError where
  | MalformedData : DeserializationError
deriving DecidableEq

/-- `data[k].items()`: succeeds exactly when the key is present and its value
is mapping-shaped (`KeyError` / `AttributeError` otherwise). -/
def getMap (data : DataDict) (k : String) : Option (List (String × Version)) :=
  match lookupKey data k with
  | some (Json.map l) => some l
  | _ => none

/-- `ProtocolCommand.from_json_data_dict`: rebuilds the version maps from
`data['_reads'].items()` and `data['_writes'].items()` (failing with
`MalformedData` when either is absent or not mapping-shaped), then — only
when `flag == STORE` and `"_origin" in data` — decodes the origin with
`LibraAddress.from_encoded_str` (failing with `MalformedData` when the
encoding does not decode). -/
def from_json_data_dict (data : DataDict) (flag : JSONFlag) :
    Except DeserializationError ProtocolCommand :=
  match getMap data "_reads" with
  | none => Except.error DeserializationError.MalformedData
  | some readsMap =>
    match getMap data "_writes" with
    | none => Except.error DeserializationError.MalformedData
    | some writesMap =>
      if flag = JSONFlag.STORE then
        match lookupKey data "_origin" with
        | none =>
          Except.ok { reads_version_map := readsMap,
                      writes_version_map := writesMap, origin := none }
        | some (Json.str s) =>
          match LibraAddress.from_encoded_str s with
          | some a =>
            Except.ok { reads_version_map := readsMap,
                        writes_version_map := writesMap, origin := some a }
          | none => Except.error DeserializationError.MalformedData
        | some _ => Except.error DeserializationError.MalformedData
      else
        Except.ok { reads_version_map := readsMap,
                    writes_version_map := writesMap, origin := none }

/-! ### Properties of the Python-dict model -/

theorem lookupKey_filter_ne {α : Type} (l : List (String × α)) (k k₀ : String)
    (h : k₀ ≠ k) :
    lookupKey (l.filter (fun p => !decide (p.1 = k))) k₀ = lookupKey l k₀ := by
  induction l with
  | nil => rfl
  | cons a rest ih =>
    obtain ⟨a1, a2⟩ := a
    by_cases hak : a1 = k
    · have hne : ¬(a1 = k₀) := fun he => h (he ▸ hak ▸ rfl : k₀ = k)
      simp [List.filter_cons, hak, lookupKey, hne, ih, Ne.symm h]
    · by_cases hk0 : a1 = k₀ <;>
        simp [List.filter_cons, hak, lookupKey, hk0, ih, h]

theorem lastVal_eq_none {α : Type} (l : List (String × α)) (k : String)
    (h : ∀ v, (k, v) ∉ l) : lastVal l k = none := by
  induction l with
  | nil => rfl
  | cons a rest ih =>
    obtain ⟨a1, a2⟩ := a
    have h1 : ∀ v, (k, v) ∉ rest := fun v hv => h v (List.mem_cons_of_mem _ hv)
    have h2 : ¬(a1 = k) := by
      intro he
      subst he
      exact h a2 (List.mem_cons_self _ _)
    simp [lastVal, ih h1, h2]

theorem lastVal_append {α : Type} (l₁ l₂ : List (String × α)) (k : String) :
    lastVal (l₁ ++ l₂) k = (lastVal l₂ k).or (lastVal l₁ k) := by
  induction l₁ with
  | nil => simp [lastVal]
  | cons a rest ih =>
    obtain ⟨a1, a2⟩ := a
    simp only [List.cons_append, lastVal, List.append_eq, ih, Option.or_assoc]

theorem lookupKey_pydict {α : Type} (l : List (String × α)) (k₀ : String) :
    lookupKey (pydict l) k₀ = lastVal l k₀ := by
  induction l with
  | nil => rfl
  | cons a rest ih =>
    obtain ⟨a1, a2⟩ := a
    by_cases hk : a1 = k₀
    · subst hk
      simp only [pydict, lookupKey, if_pos rfl, lastVal]
      cases h : lastVal rest a1 <;> simp [Option.or]
    · simp only [pydict, lookupKey, if_neg hk]
      rw [lookupKey_filter_ne _ _ _ (fun he => hk he.symm), ih]
      cases h : lastVal rest k₀ <;> simp [lastVal, h, hk]

theorem mem_pydict_key {α : Type} (l : List (String × α)) (x : String × α)
    (h : x ∈ pydict l) : x.1 ∈ l.map Prod.fst := by
  induction l with
  | nil => cases h
  | cons a rest ih =>
    obtain ⟨a1, a2⟩ := a
    simp only [pydict] at h
    rcases List.mem_cons.mp h with h | h
    · subst h; simp
    · have hx := List.mem_of_mem_filter h
      simp [ih hx]

theorem pydict_keys_nodup {α : Type} (l : List (String × α)) :
    ((pydict l).map Prod.fst).Nodup := by
  induction l with
  | nil => simp [pydict]
  | cons a rest ih =>
    obtain ⟨a1, a2⟩ := a
    simp only [pydict, List.map_cons, List.nodup_cons]
    constructor
    · intro hmem
      rcases List.mem_map.mp hmem with ⟨x, hx, hfst⟩
      have hp := List.of_mem_filter hx
      simp [hfst] at hp
    · have hsub : (((pydict rest).filter (fun p => !decide (p.1 = a1))).map Prod.fst).Sublist
          ((pydict rest).map Prod.fst) :=
        (List.filter_sublist _).map _
      exact ih.sublist hsub

theorem pydict_eq_self {α : Type} (l : List (String × α))
    (h : (l.map Prod.fst).Nodup) : pydict l = l := by
  induction l with
  | nil => rfl
  | cons a rest ih =>
    obtain ⟨a1, a2⟩ := a
    simp only [List.map_cons, List.nodup_cons] at h
    obtain ⟨hnot, hrest⟩ := h
    have hnone : lastVal rest a1 = none := by
      apply lastVal_eq_none
      intro v hv
      exact hnot (List.mem_map.mpr ⟨(a1, v), hv, rfl⟩)
    have hfilter : (pydict rest).filter (fun p => !decide (p.1 = a1)) = pydict rest := by
      apply List.filter_eq_self.mpr
      intro x hx
      have hx1 : ¬(x.1 = a1) := fun he => hnot (he ▸ mem_pydict_key rest x hx)
      simp [hx1]
    simp only [pydict, hnone, Option.getD_none]
    rw [hfilter, ih hrest]

/-! ### Concrete values used by witnesses -/

/-- A concrete party identity. -/
def addrA : LibraAddress := ⟨"A", by decide⟩

/-- A second, distinct party identity. -/
def addrB : LibraAddress := ⟨"B", by decide⟩

/-- A concrete command with populated version maps and a set origin. -/
def cEx : ProtocolCommand :=
  { reads_version_map := [("obj1", Version.int 5)],
    writes_version_map := [("obj2", Version.int 1)],
    origin := some addrA }

/-- A concrete command whose `reads_version_map` holds two entries with the
same `object_id`. -/
def cDup : ProtocolCommand :=
  { reads_version_map := [("a", Version.int 1), ("a", Version.int 2)],
    writes_version_map := [],
    origin := none }

/-! ### Claim theorems -/

/-- **C2**: the mapping returned by `get_json_data_dict c mode` contains an
`"_origin"` key iff `mode == STORE` and the command's origin is set; when
present, the key is bound to the origin's canonical string encoding
(`as_str`).  In particular NET-mode output never contains an origin field. -/
theorem origin_key_iff_store_and_set (c : ProtocolCommand) (flag : JSONFlag) :
    lookupKey (get_json_data_dict c flag) "_origin"
      = if flag = JSONFlag.STORE then c.origin.map (fun o => Json.str o.as_str)
        else none := by
  cases flag <;> cases horigin : c.origin <;>
    simp [get_json_data_dict, add_object_type, lookupKey, horigin]

/-- **C3**: after `set_origin c (some a)` succeeds, setting the same origin
again is an error-free no-op leaving the origin at `a`, while setting a
different origin `b ≠ a` fails with `StateConflict` and leaves the command
(and hence its origin) unchanged. -/
theorem set_origin_idempotent_and_conflict (c : ProtocolCommand)
    (a b : LibraAddress) (hab : a ≠ b) (c₁ : ProtocolCommand)
    (hsucc : set_origin c (some a) = (none, c₁)) :
    c₁.origin = some a ∧
    set_origin c₁ (some a) = (none, c₁) ∧
    set_origin c₁ (some b) = (some SetOriginError.StateConflict, c₁) := by
  unfold set_origin at hsucc
  split at hsucc
  · have h2 : { c with origin := some a } = c₁ := congrArg Prod.snd hsucc
    subst h2
    refine ⟨rfl, ?_, ?_⟩
    · unfold set_origin
      rw [if_pos (Or.inr rfl)]
    · unfold set_origin
      rw [if_neg]
      rintro (h | h)
      · exact Option.noConfusion h
      · exact hab (Option.some.inj h).symm
  · exact Option.noConfusion
      (congrArg Prod.fst hsucc : some SetOriginError.StateConflict = none)

/-- Witness for C3 at a concrete command and two distinct identities. -/
theorem set_origin_idempotent_and_conflict_witness :
    ({ ProtocolCommand.init with origin := some addrA } : ProtocolCommand).origin
        = some addrA ∧
    set_origin { ProtocolCommand.init with origin := some addrA } (some addrA)
      = (none, { ProtocolCommand.init with origin := some addrA }) ∧
    set_origin { ProtocolCommand.init with origin := some addrA } (some addrB)
      = (some SetOriginError.StateConflict,
         { ProtocolCommand.init with origin := some addrA }) :=
  set_origin_idempotent_and_conflict ProtocolCommand.init addrA addrB
    (by decide) _ rfl

/-- **C10**: `set_origin` does not check the non-null precondition on its
argument: on a command with unset origin, `set_origin c none` raises no
error and leaves the origin unset (the command unchanged), after which a
later `set_origin c (some a)` still succeeds and assigns the origin. -/
theorem set_origin_none_unchecked (c : ProtocolCommand) (h : c.origin = none)
    (a : LibraAddress) :
    set_origin c none = (none, c) ∧
    set_origin c (some a) = (none, { c with origin := some a }) := by
  constructor
  · have hc : { c with origin := none } = c := by
      cases c
      simp_all
    unfold set_origin
    rw [if_pos (Or.inl h), hc]
  · unfold set_origin
    rw [if_pos (Or.inl h)]

/-- Witness for C10 at the freshly initialized command. -/
theorem set_origin_none_unchecked_witness :
    set_origin ProtocolCommand.init none = (none, ProtocolCommand.init) ∧
    set_origin ProtocolCommand.init (some addrA)
      = (none, { ProtocolCommand.init with origin := some addrA }) :=
  set_origin_none_unchecked ProtocolCommand.init rfl addrA

/-- **C4**: `get_dependencies` is the set of version tokens of `reads` and
`get_new_object_versions` the set of version tokens of `writes`; each is
empty when the corresponding sequence is empty, and each is invariant under
permutation (insertion order) of the corresponding sequence. -/
theorem dependency_sets_correct (c : ProtocolCommand) :
    (↑(get_dependencies c)
        = { v : Version | ∃ oid, (oid, v) ∈ c.reads_version_map }) ∧
    (↑(get_new_object_versions c)
        = { v : Version | ∃ oid, (oid, v) ∈ c.writes_version_map }) ∧
    (c.reads_version_map = [] → get_dependencies c = ∅) ∧
    (c.writes_version_map = [] → get_new_object_versions c = ∅) ∧
    (∀ c' : ProtocolCommand, c'.reads_version_map.Perm c.reads_version_map →
      get_dependencies c' = get_dependencies c) ∧
    (∀ c' : ProtocolCommand, c'.writes_version_map.Perm c.writes_version_map →
      get_new_object_versions c' = get_new_object_versions c) := by
  refine ⟨?_, ?_, ?_, ?_, ?_, ?_⟩
  · ext v
    simp only [get_dependencies, Finset.coe_sort_coe, Finset.mem_coe,
      List.mem_toFinset, List.mem_map, Set.mem_setOf_eq, Prod.exists]
    constructor
    · rintro ⟨oid, w, hmem, rfl⟩
      exact ⟨oid, hmem⟩
    · rintro ⟨oid, hmem⟩
      exact ⟨oid, v, hmem, rfl⟩
  · ext v
    simp only [get_new_object_versions, Finset.coe_sort_coe, Finset.mem_coe,
      List.mem_toFinset, List.mem_map, Set.mem_setOf_eq, Prod.exists]
    constructor
    · rintro ⟨oid, w, hmem, rfl⟩
      exact ⟨oid, hmem⟩
    · rintro ⟨oid, hmem⟩
      exact ⟨oid, v, hmem, rfl⟩
  · intro h
    simp [get_dependencies, h]
  · intro h
    simp [get_new_object_versions, h]
  · intro c' hp
    exact List.toFinset_eq_of_perm _ _ (hp.map Prod.snd)
  · intro c' hp
    exact List.toFinset_eq_of_perm _ _ (hp.map Prod.snd)

/-- Witness for C4: the empty map yields the empty set, and swapping the
insertion order of `writes` leaves `get_new_object_versions` unchanged. -/
theorem dependency_sets_correct_witness :
    get_dependencies ProtocolCommand.init = ∅ ∧
    get_new_object_versions
        ⟨[], [("x", Version.int 5), ("y", Version.int 6)], none⟩
      = get_new_object_versions
        ⟨[], [("y", Version.int 6), ("x", Version.int 5)], none⟩ := by
  constructor
  · exact (dependency_sets_correct ProtocolCommand.init).2.2.1 rfl
  · exact (dependency_sets_correct
        ⟨[], [("y", Version.int 6), ("x", Version.int 5)], none⟩).2.2.2.2.2
      ⟨[], [("x", Version.int 5), ("y", Version.int 6)], none⟩ (by decide)

/-- **C6** (spec-modelled `get_object`): calling `get_object` with a version
that is not a member of `get_new_object_versions` fails with
`UnknownVersion`, for every command, version, dependency list and
variant-specific materialization. -/
theorem get_object_unknown_version {α : Type} (materialize : Version → List α → α)
    (c : ProtocolCommand) (v : Version) (deps : List α)
    (h : v ∉ get_new_object_versions c) :
    get_object materialize c v deps = Except.error GetObjectError.UnknownVersion := by
  unfold get_object
  rw [if_neg h]

/-- Witness for C6: the initialized command creates no versions, so asking
for version `7` fails with `UnknownVersion`. -/
theorem get_object_unknown_version_witness :
    (Version.int 7 ∉ get_new_object_versions ProtocolCommand.init) ∧
    get_object (fun _ _ => (0 : Nat)) ProtocolCommand.init (Version.int 7) []
      = Except.error GetObjectError.UnknownVersion :=
  ⟨by decide, get_object_unknown_version _ _ _ _ (by decide)⟩

/-- `get_json_data_dict` viewed as a method call on a mutable receiver: the
body only reads `self.reads_version_map`, `self.writes_version_map` and
`self.origin` and assigns only the local `data_dict`, never a field of
`self`, so the call returns the data dictionary together with the receiver's
(unchanged) post-state. -/
def get_json_data_dict_run (self : ProtocolCommand) (flag : JSONFlag) :
    DataDict × ProtocolCommand :=
  (get_json_data_dict self flag, self)

/-- **C8**: serialization has no side effect on the command — the post-state
of the receiver agrees with the pre-state on `reads_version_map`,
`writes_version_map` and `origin` — and a second call on the post-state
returns the identical mapping. -/
theorem get_json_data_dict_no_side_effects (c : ProtocolCommand) (flag : JSONFlag) :
    (get_json_data_dict_run c flag).2.reads_version_map = c.reads_version_map ∧
    (get_json_data_dict_run c flag).2.writes_version_map = c.writes_version_map ∧
    (get_json_data_dict_run c flag).2.origin = c.origin ∧
    (get_json_data_dict_run ((get_json_data_dict_run c flag).2) flag).1
      = (get_json_data_dict_run c flag).1 :=
  ⟨rfl, rfl, rfl, rfl⟩

/-- **C9**: a version-map list `l` (the command's `reads_version_map` or
`writes_version_map`) holding two entries with the same object_id is not
rejected: serialization still binds `"_reads"`/`"_writes"` to the
`dict`-constructed maps, and in `pydict l` the duplicated object_id appears
exactly once (the key list is duplicate-free), bound to the LAST entry's
version — the earlier duplicate is silently dropped, with no
`MalformedData`. -/
theorem get_json_data_dict_duplicates_last_wins (c : ProtocolCommand)
    (flag : JSONFlag) (l pre mid post : List (String × Version)) (k : String)
    (v₁ v₂ : Version)
    (hdecomp : l = pre ++ (k, v₁) :: mid ++ (k, v₂) :: post)
    (hpost : ∀ v, (k, v) ∉ post) :
    lookupKey (get_json_data_dict c flag) "_reads"
      = some (Json.map (pydict c.reads_version_map)) ∧
    lookupKey (get_json_data_dict c flag) "_writes"
      = some (Json.map (pydict c.writes_version_map)) ∧
    lookupKey (pydict l) k = some v₂ ∧
    ((pydict l).map Prod.fst).Nodup := by
  refine ⟨?_, ?_, ?_, pydict_keys_nodup l⟩
  · cases flag <;> cases ho : c.origin <;>
      simp [get_json_data_dict, add_object_type, lookupKey, ho]
  · cases flag <;> cases ho : c.origin <;>
      simp [get_json_data_dict, add_object_type, lookupKey, ho]
  · subst hdecomp
    have hpost' : lastVal post k = none := lastVal_eq_none _ _ hpost
    simp [lookupKey_pydict, lastVal_append, lastVal, hpost', Option.or]

/-- Witness for C9: with `reads = [("a", 1), ("a", 2)]` the serialized map
binds `"a"` once, to version `2`. -/
theorem get_json_data_dict_duplicates_last_wins_witness :
    lookupKey (get_json_data_dict cDup JSONFlag.NET) "_reads"
      = some (Json.map (pydict cDup.reads_version_map)) ∧
    lookupKey (get_json_data_dict cDup JSONFlag.NET) "_writes"
      = some (Json.map (pydict cDup.writes_version_map)) ∧
    lookupKey (pydict [("a", Version.int 1), ("a", Version.int 2)]) "a"
      = some (Version.int 2) ∧
    ((pydict [("a", Version.int 1), ("a", Version.int 2)]).map Prod.fst).Nodup :=
  get_json_data_dict_duplicates_last_wins cDup JSONFlag.NET
    [("a", Version.int 1), ("a", Version.int 2)] [] [] [] "a"
    (Version.int 1) (Version.int 2) rfl (fun _ => List.not_mem_nil _)

/-- **C1**: for every command whose `reads` and `writes` carry no duplicate
object_ids, deserializing the STORE-mode serialization yields a command
equal to the original in the sense of `__eq__` (`commandEq`): equal `reads`,
`writes` and `origin` (set or unset). -/
theorem store_roundtrip (c : ProtocolCommand)
    (hr : (c.reads_version_map.map Prod.fst).Nodup)
    (hw : (c.writes_version_map.map Prod.fst).Nodup) :
    ∃ c', from_json_data_dict (get_json_data_dict c JSONFlag.STORE) JSONFlag.STORE
            = Except.ok c' ∧ commandEq c' c := by
  cases ho : c.origin with
  | none =>
    refine ⟨⟨c.reads_version_map, c.writes_version_map, none⟩, ?_,
      ⟨rfl, rfl, ho.symm⟩⟩
    simp [get_json_data_dict, add_object_type, from_json_data_dict, getMap,
      lookupKey, ho, pydict_eq_self _ hr, pydict_eq_self _ hw]
  | some a =>
    refine ⟨⟨c.reads_version_map, c.writes_version_map, some a⟩, ?_,
      ⟨rfl, rfl, ho.symm⟩⟩
    simp [get_json_data_dict, add_object_type, from_json_data_dict, getMap,
      lookupKey, ho, pydict_eq_self _ hr, pydict_eq_self _ hw,
      LibraAddress.from_encoded_str, LibraAddress.as_str, a.valid]

/-- Witness for C1 at a concrete command with origin set. -/
theorem store_roundtrip_witness :
    ∃ c', from_json_data_dict (get_json_data_dict cEx JSONFlag.STORE) JSONFlag.STORE
            = Except.ok c' ∧ commandEq c' cEx :=
  store_roundtrip cEx (by decide) (by decide)

/-- An `"_origin"` entry the Party Identity codec cannot decode: either not
a string at all, or a string that is not a canonical encoding. -/
def originEntryUndecodable : Json → Prop
  | Json.str s => LibraAddress.from_encoded_str s = none
  | _ => True

/-- **C5**: `from_json_data_dict` fails with `MalformedData` whenever the
`"_reads"` or `"_writes"` entry is absent or not mapping-shaped, or when the
mode is STORE and an `"_origin"` entry is present that the Party Identity
codec cannot decode; the error is returned, never silently defaulted. -/
theorem from_json_malformed (data : DataDict) (flag : JSONFlag)
    (h : getMap data "_reads" = none ∨ getMap data "_writes" = none ∨
         (flag = JSONFlag.STORE ∧
           ∃ j, lookupKey data "_origin" = some j ∧ originEntryUndecodable j)) :
    from_json_data_dict data flag = Except.error DeserializationError.MalformedData := by
  unfold from_json_data_dict
  rcases h with h | h | ⟨hf, j, hj, hu⟩
  · rw [h]
  · cases hr : getMap data "_reads" with
    | none => rfl
    | some rm => rw [h]
  · subst hf
    cases hr : getMap data "_reads" with
    | none => rfl
    | some rm =>
      cases hw : getMap data "_writes" with
      | none => rfl
      | some wm =>
        cases j with
        | str s =>
          simp only [originEntryUndecodable] at hu
          simp [hj, hu]
        | int n => simp [hj]
        | map m => simp [hj]

/-- Witness for C5: an empty input is missing `"_reads"`; a STORE input with
an empty-string `"_origin"` encoding does not decode. -/
theorem from_json_malformed_witness :
    from_json_data_dict [] JSONFlag.NET
      = Except.error DeserializationError.MalformedData ∧
    from_json_data_dict
        [("_reads", Json.map []), ("_writes", Json.map []),
         ("_origin", Json.str "")] JSONFlag.STORE
      = Except.error DeserializationError.MalformedData :=
  ⟨from_json_malformed [] JSONFlag.NET (Or.inl rfl),
   from_json_malformed _ JSONFlag.STORE
     (Or.inr (Or.inr ⟨rfl, Json.str "", rfl,
       by simp [originEntryUndecodable, LibraAddress.from_encoded_str]⟩))⟩

/-- **C7**: NET-mode deserialization never reads `"_origin"`: whenever
`from_json_data_dict data NET` yields a command — whatever entries,
including an `"_origin"` entry, the input contains — that command's origin
is unset. -/
theorem from_json_net_origin_unset (data : DataDict) (c' : ProtocolCommand)
    (h : from_json_data_dict data JSONFlag.NET = Except.ok c') :
    c'.origin = none := by
  unfold from_json_data_dict at h
  cases hr : getMap data "_reads" with
  | none =>
    rw [hr] at h
    cases h
  | some rm =>
    rw [hr] at h
    cases hw : getMap data "_writes" with
    | none =>
      rw [hw] at h
      cases h
    | some wm =>
      rw [hw] at h
      have h' : Except.ok (ProtocolCommand.mk rm wm none) = Except.ok c' := h
      obtain rfl := (Except.ok.inj h').symm
      rfl

/-- Witness for C7: NET-mode deserialization of the STORE serialization of a
command with origin set (which does contain `"_origin"`) leaves the origin
unset. -/
theorem from_json_net_origin_unset_witness :
    from_json_data_dict (get_json_data_dict cEx JSONFlag.STORE) JSONFlag.NET
      = Except.ok ⟨[("obj1", Version.int 5)], [("obj2", Version.int 1)], none⟩ ∧
    (⟨[("obj1", Version.int 5)], [("obj2", Version.int 1)], none⟩
        : ProtocolCommand).origin = none :=
  ⟨rfl, from_json_net_origin_unset (get_json_data_dict cEx JSONFlag.STORE) _ rfl⟩

end OffChain
